import Mathlib

/-!
Verification of the gopdf PDF writer (`main.go`, later variant).

The Go program builds an in-memory object graph for a PDF document and
serializes it to bytes.  We embed the program shallowly: Go byte strings
become `List Nat` (one entry per byte), the mutable document becomes an
explicit `PdfDocument` state threaded through the operations, and code
paths that dereference a nil pointer or panic become `Option` results
(`none` = the call fails).  External collaborators (the raster decoder of
`image.Decode` and the zlib compressor of `compress/zlib`) are out of
scope per the specification; `addImage` therefore receives the decoded
dimensions and the compressed byte stream as inputs and runs the in-repo
remainder of the pipeline (the base-85 encoding step of
`encoding/ascii85` and the framing done by `PdfImage.bytes`).
-/

namespace Gopdf

/-- Byte strings: one `Nat` per byte, mirroring Go `[]byte` / `string`. -/
abbrev ByteStr := List Nat

/-- Bytes of an ASCII string literal (all literals in the source are ASCII). -/
def asciiStr (s : String) : ByteStr := s.data.map Char.toNat

/-- Decimal rendering of a natural, as Go `fmt` `%v` prints a non-negative int. -/
def natStr (n : Nat) : ByteStr := asciiStr (Nat.repr n)

/-- Decimal rendering of a Go `int` under `%v` (minus sign for negatives). -/
def intStr : Int → ByteStr
  | Int.ofNat n => natStr n
  | Int.negSucc n => 45 :: natStr (n + 1)

/-- Go `%010d`: decimal digits left-padded with zeros to width 10. -/
def pad10 (n : Nat) : ByteStr :=
  List.replicate (10 - (Nat.repr n).length) 48 ++ natStr n

/-- Concatenation of a list of byte strings. -/
def cat (ls : List ByteStr) : ByteStr := ls.foldr (· ++ ·) []

@[simp] theorem cat_nil : cat [] = [] := rfl

@[simp] theorem cat_cons (a : ByteStr) (ls : List ByteStr) :
    cat (a :: ls) = a ++ cat ls := rfl

theorem cat_append (l₁ l₂ : List ByteStr) :
    cat (l₁ ++ l₂) = cat l₁ ++ cat l₂ := by
  induction l₁ with
  | nil => simp
  | cons a l ih => simp [ih]

/-! ## The base-85 step of the image pipeline (`encoding/ascii85`)

`PdfImage.loadImage` pipes the zlib-compressed raster through
`ascii85.NewEncoder`.  The encoder processes full 4-byte groups (emitting
`z` for an all-zero full group, else five characters `!`..`u`) and, on
close, a trailing partial group of `k` bytes as the first `k+1` characters
of the zero-padded group. -/

/-- The five base-85 characters of one 4-byte group. -/
def ascii85Group (b0 b1 b2 b3 : Nat) : ByteStr :=
  let v := ((b0 * 256 + b1) * 256 + b2) * 256 + b3
  [v / 52200625 % 85 + 33, v / 614125 % 85 + 33, v / 7225 % 85 + 33,
   v / 85 % 85 + 33, v % 85 + 33]

/-- Base-85 encoding of a byte stream, as produced by `encoding/ascii85`. -/
def ascii85Encode : ByteStr → ByteStr
  | [] => []
  | [b0] => (ascii85Group b0 0 0 0).take 2
  | [b0, b1] => (ascii85Group b0 b1 0 0).take 3
  | [b0, b1, b2] => (ascii85Group b0 b1 b2 0).take 4
  | b0 :: b1 :: b2 :: b3 :: rest =>
      (if b0 = 0 ∧ b1 = 0 ∧ b2 = 0 ∧ b3 = 0 then [122] else ascii85Group b0 b1 b2 b3)
        ++ ascii85Encode rest

/-! ## Data model

Each Go struct embedding `PdfObject` carries the id assigned by
`PdfDocument.addObject`.  Pointer sharing in Go (the objects list aliases
`d.resources`, the pages, their contents, the fonts and the images) is
modelled relationally: the document stores the entity lists, and the
registration list `objects` stores tags pointing into them. -/

/-- Model of `PdfFont` (later variant: raw `name`, separate `encoding` field). -/
structure FontSt where
  id : Nat
  name : ByteStr
  baseFont : ByteStr
  subtype : ByteStr
  encoding : ByteStr
  deriving DecidableEq

/-- Model of `PdfImage`: decoded dimensions plus the stored `ascii85data` payload. -/
structure ImageSt where
  id : Nat
  name : ByteStr
  width : Int
  height : Int
  ascii85data : ByteStr
  deriving DecidableEq

/-- Model of `PdfPage` together with its exclusively-owned `PdfPageContent`
(text / lines / graphics buffers).  `font` is the index into the
document's font list of the page's current font pointer (`none` = nil). -/
structure PageSt where
  id : Nat
  contentId : Nat
  font : Option Nat
  fontSize : Int
  height : Int
  width : Int
  x : Int
  y : Int
  leftMargin : Int
  rightMargin : Int
  topMargin : Int
  bottomMargin : Int
  text : ByteStr
  lines : ByteStr
  graphics : ByteStr
  deriving DecidableEq

/-- One entry of `PdfDocument.objects`, tagging which entity was registered. -/
inductive ObjTag where
  | catalog
  | pagesTree
  | outlines
  | resources
  | page (i : Nat)
  | content (i : Nat)
  | font (i : Nat)
  | image (i : Nat)
  deriving DecidableEq

/-- Model of `PdfDocument`: registration list plus the entity lists it aliases. -/
structure PdfDocument where
  catalogId : Nat
  pagesTreeId : Nat
  outlinesId : Nat
  resourcesId : Nat
  objects : List ObjTag
  pages : List PageSt
  fonts : List FontSt
  images : List ImageSt
  currentPage : Nat
  deriving DecidableEq

def dfltFont : FontSt :=
  { id := 0, name := [], baseFont := [], subtype := [], encoding := [] }

def dfltImage : ImageSt :=
  { id := 0, name := [], width := 0, height := 0, ascii85data := [] }

def dfltPage : PageSt :=
  { id := 0, contentId := 0, font := none, fontSize := 0, height := 0, width := 0,
    x := 0, y := 0, leftMargin := 0, rightMargin := 0, topMargin := 0, bottomMargin := 0,
    text := [], lines := [], graphics := [] }

/-- The id printed for a registered object tag (the stored `PdfObject.id`). -/
def objId (d : PdfDocument) : ObjTag → Nat
  | .catalog => d.catalogId
  | .pagesTree => d.pagesTreeId
  | .outlines => d.outlinesId
  | .resources => d.resourcesId
  | .page i => (d.pages.getD i dfltPage).id
  | .content i => (d.pages.getD i dfltPage).contentId
  | .font i => (d.fonts.getD i dfltFont).id
  | .image i => (d.images.getD i dfltImage).id

/-! ## Construction operations -/

/-- Model of `NewFont`: the 14-way switch; the `default` branch panics (`none`).
The id is filled in later by `addObject`. -/
def NewFont (name : ByteStr) (font : Int) : Option FontSt :=
  let mk : String → String → Option FontSt := fun base enc =>
    some { id := 0, name := name, baseFont := asciiStr base,
           subtype := asciiStr ("Type1"), encoding := asciiStr enc }
  if font = 1 then mk ("Courier") ("WinAnsiEncoding")
  else if font = 2 then mk ("Courier-Bold") ("WinAnsiEncoding")
  else if font = 3 then mk ("Courier-BoldOblique") ("WinAnsiEncoding")
  else if font = 4 then mk ("Courier-Oblique") ("WinAnsiEncoding")
  else if font = 5 then mk ("Helvetica") ("WinAnsiEncoding")
  else if font = 6 then mk ("Helvetica-Bold") ("WinAnsiEncoding")
  else if font = 7 then mk ("Helvetica-BoldOblique") ("WinAnsiEncoding")
  else if font = 8 then mk ("Helvetica-Oblique") ("WinAnsiEncoding")
  else if font = 9 then mk ("Times-Roman") ("WinAnsiEncoding")
  else if font = 10 then mk ("Times-Bold") ("WinAnsiEncoding")
  else if font = 11 then mk ("Times-Italic") ("WinAnsiEncoding")
  else if font = 12 then mk ("Times-BoldItalic") ("WinAnsiEncoding")
  else if font = 13 then mk ("Symbol") ("StandardEncoding")
  else if font = 14 then mk ("ZapfDingbats") ("StandardEncoding")
  else none

/-- The fixed text preamble `addPage` seeds into every content stream. -/
def textPreamble : ByteStr := asciiStr ("/F1 10 Tf\r\n1 0 0 1 72 -29 Tm\r\n10 TL\r\n")

/-- The fixed graphics preamble (`0.5 w`) seeded by `addPage`. -/
def graphicsPreamble : ByteStr := asciiStr ("0.5 w\r\n")

/-- Model of `PdfDocument.addPage`: fresh page (A4 canvas, 72-unit margins, font
size 10, cursor at the top-left corner of the text area), fresh content,
registered page-then-content, becomes the current page. -/
def addPage (d : PdfDocument) : PdfDocument :=
  let n := d.pages.length
  let pg : PageSt :=
    { id := d.objects.length + 1
      contentId := d.objects.length + 2
      font := none
      fontSize := 10
      height := 842
      width := 595
      x := 72
      y := 842 - 72 - 10
      leftMargin := 72
      rightMargin := 72
      topMargin := 72
      bottomMargin := 72
      text := textPreamble
      lines := []
      graphics := graphicsPreamble }
  { d with pages := d.pages ++ [pg]
         , objects := d.objects ++ [ObjTag.page n, ObjTag.content n]
         , currentPage := n }

/-- Model of `NewPdfDocument`: registers Catalog, Pages, Outlines, Resources (ids
1-4) and creates the first page. -/
def NewPdfDocument : PdfDocument :=
  let d0 : PdfDocument :=
    { catalogId := 0, pagesTreeId := 0, outlinesId := 0, resourcesId := 0,
      objects := [], pages := [], fonts := [], images := [], currentPage := 0 }
  let d1 := { d0 with catalogId := d0.objects.length + 1,
                      objects := d0.objects ++ [ObjTag.catalog] }
  let d2 := { d1 with pagesTreeId := d1.objects.length + 1,
                      objects := d1.objects ++ [ObjTag.pagesTree] }
  let d3 := { d2 with outlinesId := d2.objects.length + 1,
                      objects := d2.objects ++ [ObjTag.outlines] }
  let d4 := { d3 with resourcesId := d3.objects.length + 1,
                      objects := d3.objects ++ [ObjTag.resources] }
  addPage d4

/-- Model of `PdfDocument.addFont`: `NewFont` (panics on a bad selector, hence
`none`) then registration and append to the resources font list. -/
def addFont (d : PdfDocument) (name : ByteStr) (fid : Int) : Option PdfDocument :=
  match NewFont name fid with
  | none => none
  | some f =>
      let f' := { f with id := d.objects.length + 1 }
      some { d with objects := d.objects ++ [ObjTag.font d.fonts.length]
                  , fonts := d.fonts ++ [f'] }

/-- Model of `PdfDocument.addImage` with the external decoder and compressor
factored out: `w`, `h` are the decoded bounds and `compressed` the zlib
output; the in-repo remainder stores the base-85 encoding as
`ascii85data` and registers the image. -/
def addImage (d : PdfDocument) (name : ByteStr) (w h : Int) (compressed : ByteStr) :
    PdfDocument :=
  let img : ImageSt :=
    { id := d.objects.length + 1, name := name, width := w, height := h,
      ascii85data := ascii85Encode compressed }
  { d with objects := d.objects ++ [ObjTag.image d.images.length]
         , images := d.images ++ [img] }

/-! ## Content stream builder (the `PdfPage` methods) -/

/-- One step of the overwriting linear scans of `setFont` / `drawImage`:
a match overwrites the accumulator with the current index. -/
def scanStep {α : Type} (nameOf : α → ByteStr) (name : ByteStr) :
    Option Nat → Nat × α → Option Nat :=
  fun acc x => if nameOf x.2 = name then some x.1 else acc

/-- The linear scan of `setFont`: every match overwrites `p.font`, so the
result is the last matching index, else the previous binding. -/
def findFont (fonts : List FontSt) (name : ByteStr) (prev : Option Nat) : Option Nat :=
  fonts.enum.foldl (scanStep FontSt.name name) prev

/-- The linear scan of `drawImage` over a local nil pointer. -/
def findImage (images : List ImageSt) (name : ByteStr) : Option Nat :=
  images.enum.foldl (scanStep ImageSt.name name) none

/-- The `/<font> <size> Tf` instruction emitted by `setFont`/`setFontSize`. -/
def tfInstr (fontName : ByteStr) (size : Int) : ByteStr :=
  asciiStr ("/") ++ fontName ++ [32] ++ intStr size ++ asciiStr (" Tf\r\n")

/-- Model of `PdfPage.setFont` on page `pi`: update the binding to the last
matching font (if any), then emit `Tf` for the bound font; dereferencing
a nil `p.font` (no match ever bound) panics (`none`). -/
def setFont (d : PdfDocument) (pi : Nat) (name : ByteStr) : Option PdfDocument :=
  if pi < d.pages.length then
    let p := d.pages.getD pi dfltPage
    match findFont d.fonts name p.font with
    | none => none
    | some j =>
        let f := d.fonts.getD j dfltFont
        let p' := { p with font := some j, text := p.text ++ tfInstr f.name p.fontSize }
        some { d with pages := d.pages.set pi p' }
  else none

/-- Model of `PdfPage.setFontSize`: set the size then re-emit `Tf` for the bound
font (nil dereference when no font is bound). -/
def setFontSize (d : PdfDocument) (pi : Nat) (size : Int) : Option PdfDocument :=
  if pi < d.pages.length then
    let p := d.pages.getD pi dfltPage
    match p.font with
    | none => none
    | some j =>
        let f := d.fonts.getD j dfltFont
        let p' := { p with fontSize := size, text := p.text ++ tfInstr f.name size }
        some { d with pages := d.pages.set pi p' }
  else none

/-- The body of one iteration of the escaping loop of `outputText`:
escape `(`, `)` and `\`, keep any other visited byte. -/
def escByte (b : Nat) : ByteStr :=
  if b = 40 then [92, 40]
  else if b = 41 then [92, 41]
  else if b = 92 then [92, 92]
  else [b]

/-- How far Go's `for i := range text` advances from the current byte
position: the width of a well-formed UTF-8 encoding starting here (1 for
ASCII, 2-4 for valid multi-byte sequences per `unicode/utf8`'s
first-byte/accept-range tables), and 1 for an invalid or truncated
sequence. -/
def utf8Step : ByteStr → Nat
  | [] => 1
  | b0 :: rest =>
      if b0 < 128 then 1
      else if 194 ≤ b0 ∧ b0 ≤ 223 then
        match rest with
        | b1 :: _ => if 128 ≤ b1 ∧ b1 ≤ 191 then 2 else 1
        | [] => 1
      else if 224 ≤ b0 ∧ b0 ≤ 239 then
        match rest with
        | b1 :: b2 :: _ =>
            if (if b0 = 224 then 160 ≤ b1 ∧ b1 ≤ 191
                else if b0 = 237 then 128 ≤ b1 ∧ b1 ≤ 159
                else 128 ≤ b1 ∧ b1 ≤ 191)
               ∧ (128 ≤ b2 ∧ b2 ≤ 191) then 3 else 1
        | _ => 1
      else if 240 ≤ b0 ∧ b0 ≤ 244 then
        match rest with
        | b1 :: b2 :: b3 :: _ =>
            if (if b0 = 240 then 144 ≤ b1 ∧ b1 ≤ 191
                else if b0 = 244 then 128 ≤ b1 ∧ b1 ≤ 143
                else 128 ≤ b1 ∧ b1 ≤ 191)
               ∧ (128 ≤ b2 ∧ b2 ≤ 191) ∧ (128 ≤ b3 ∧ b3 ≤ 191) then 4 else 1
        | _ => 1
      else 1

/-- The escaping loop, iterating rune start positions: `for i := range
text` visits the byte at each rune start and skips the continuation bytes
of a well-formed multi-byte encoding.  The fuel argument is the remaining
byte count, which suffices because every iteration consumes at least one
byte; it only makes the recursion structural. -/
def escapeTextAux : Nat → ByteStr → ByteStr
  | 0, _ => []
  | _, [] => []
  | fuel + 1, b :: rest =>
      escByte b ++ escapeTextAux fuel (rest.drop (utf8Step (b :: rest) - 1))

/-- The byte-level escaping loop of `outputText` (`for i := range text`). -/
def escapeText (s : ByteStr) : ByteStr := escapeTextAux s.length s

/-- The `1 0 0 1 x y Tm` positioning instruction `outputText` emits,
taken from the raw cursor of the page. -/
def tmInstr (x y : Int) : ByteStr :=
  asciiStr ("1 0 0 1 ") ++ intStr x ++ [32] ++ intStr y ++ asciiStr (" Tm\r\n")

/-- Model of `PdfPage.outputText` (later variant): position at the raw cursor,
then show the escaped text. -/
def outputText (p : PageSt) (text : ByteStr) : PageSt :=
  let tj := 40 :: (escapeText text ++ asciiStr (") Tj\r\n"))
  { p with text := p.text ++ (tmInstr p.x p.y ++ tj) }

/-- Model of `PdfPage.print`: outputText then advance the cursor by the
fixed-width approximation `len(text) * fontSize`. -/
def printText (p : PageSt) (text : ByteStr) : PageSt :=
  let p' := outputText p text
  { p' with x := p'.x + (text.length : Int) * p'.fontSize }

/-- Model of `PdfPage.println`: outputText then carriage-return the cursor. -/
def printlnText (p : PageSt) (text : ByteStr) : PageSt :=
  let p' := outputText p text
  { p' with x := p'.leftMargin, y := p'.y - p'.fontSize }

/-- Model of `PdfPage.drawImage`: look up the image (a nil local when no name
matches, so the subsequent `i.width` panics, hence `none`), then emit the
save / cm / Do / restore sequence. -/
def drawImage (d : PdfDocument) (pi : Nat) (name : ByteStr) (x y : Int) :
    Option PdfDocument :=
  if pi < d.pages.length then
    let p := d.pages.getD pi dfltPage
    match findImage d.images name with
    | none => none
    | some j =>
        let img := d.images.getD j dfltImage
        let cm := intStr img.width ++ asciiStr (" 0 0 ") ++ intStr img.height ++ [32]
                  ++ intStr x ++ [32] ++ intStr y ++ asciiStr (" cm\r\n")
        let painted := asciiStr ("q\r\n") ++ cm
                  ++ (asciiStr ("/") ++ name ++ asciiStr (" Do\r\n")) ++ asciiStr ("Q\r\n")
        let p' := { p with graphics := p.graphics ++ painted }
        some { d with pages := d.pages.set pi p' }
  else none

/-- Model of `PdfPage.drawBox`. -/
def drawBox (p : PageSt) (x y w h : Int) : PageSt :=
  let re := intStr x ++ [32] ++ intStr y ++ [32] ++ intStr w
      ++ [32] ++ intStr h ++ asciiStr (" re\r\n")
  { p with lines := p.lines ++ re }

/-- Model of `PdfPage.drawLine`. -/
def drawLine (p : PageSt) (x1 y1 x2 y2 : Int) : PageSt :=
  let seg := intStr x1 ++ [32] ++ intStr y1 ++ asciiStr (" m\r\n")
      ++ intStr x2 ++ [32] ++ intStr y2 ++ asciiStr (" l\r\n")
  { p with lines := p.lines ++ seg }

/-- Model of `PdfPage.setColour` (raw 0-255 components, a documented quirk). -/
def setColour (p : PageSt) (r g b : Int) : PageSt :=
  let rg := intStr r ++ [32] ++ intStr g ++ [32] ++ intStr b ++ asciiStr (" rg\r\n")
  { p with text := p.text ++ rg }

/-! ## Operation sequences and reachability -/

/-- Update page `pi` with a pure page transformer (Go mutates through the
page pointer; a caller can only hold pointers to existing pages). -/
def pageUpdate (d : PdfDocument) (pi : Nat) (f : PageSt → PageSt) :
    Option PdfDocument :=
  if pi < d.pages.length then
    some { d with pages := d.pages.set pi (f (d.pages.getD pi dfltPage)) }
  else none

/-- One public API call after document creation. -/
inductive Op where
  | addPage
  | addFont (name : ByteStr) (code : Int)
  | addImage (name : ByteStr) (w h : Int) (compressed : ByteStr)
  | setFont (pi : Nat) (name : ByteStr)
  | setFontSize (pi : Nat) (size : Int)
  | outputText (pi : Nat) (text : ByteStr)
  | print (pi : Nat) (text : ByteStr)
  | println (pi : Nat) (text : ByteStr)
  | drawImage (pi : Nat) (name : ByteStr) (x y : Int)
  | drawBox (pi : Nat) (x y w h : Int)
  | drawLine (pi : Nat) (x1 y1 x2 y2 : Int)
  | setColour (pi : Nat) (r g b : Int)

/-- Interpret one call; `none` models a Go panic. -/
def applyOp (d : PdfDocument) : Op → Option PdfDocument
  | .addPage => some (addPage d)
  | .addFont name code => addFont d name code
  | .addImage name w h c => some (addImage d name w h c)
  | .setFont pi name => setFont d pi name
  | .setFontSize pi s => setFontSize d pi s
  | .outputText pi t => pageUpdate d pi (fun p => outputText p t)
  | .print pi t => pageUpdate d pi (fun p => printText p t)
  | .println pi t => pageUpdate d pi (fun p => printlnText p t)
  | .drawImage pi name x y => drawImage d pi name x y
  | .drawBox pi x y w h => pageUpdate d pi (fun p => drawBox p x y w h)
  | .drawLine pi a b c e => pageUpdate d pi (fun p => drawLine p a b c e)
  | .setColour pi r g b => pageUpdate d pi (fun p => setColour p r g b)

/-- Run a call sequence, stopping at the first panic. -/
def runOps (d : PdfDocument) : List Op → Option PdfDocument
  | [] => some d
  | op :: ops =>
      match applyOp d op with
      | none => none
      | some d' => runOps d' ops

/-- A document state is reachable when some API call sequence produces it
from `NewPdfDocument` without panicking. -/
def Reachable (d : PdfDocument) : Prop :=
  ∃ ops, runOps NewPdfDocument ops = some d

/-! ## Serialization (`bytes` methods and `PdfDocument.Bytes`)

Each rendering function concatenates, in order, the pieces written by the
successive `fmt.Fprintf` calls of the corresponding Go method. -/

/-- Model of `PdfObject.objectRef`: `<id> 0 R`. -/
def objectRef (id : Nat) : ByteStr := natStr id ++ asciiStr (" 0 R")

/-- Model of `PdfFont.bytes`. -/
def fontBytes (f : FontSt) : ByteStr :=
  natStr f.id ++ asciiStr (" 0 obj\r\n")
  ++ asciiStr ("<<\r\n")
  ++ asciiStr ("/Type /Font \r\n")
  ++ (asciiStr ("/Subtype /") ++ f.subtype ++ asciiStr (" \r\n"))
  ++ (asciiStr ("/Name /") ++ f.name ++ asciiStr (" \r\n"))
  ++ (asciiStr ("/BaseFont /") ++ f.baseFont ++ asciiStr (" \r\n"))
  ++ (if f.encoding = asciiStr ("StandardEncoding") then []
      else asciiStr ("/Encoding /") ++ f.encoding ++ asciiStr ("\r\n"))
  ++ asciiStr (">>\r\n")
  ++ asciiStr ("endobj\r\n")

/-- Model of `PdfImage.bytes`.  Note: no line terminator is written between the
payload and `endstream`. -/
def imageBytes (img : ImageSt) : ByteStr :=
  natStr img.id ++ asciiStr (" 0 obj\r\n")
  ++ asciiStr ("<<\r\n")
  ++ asciiStr ("/Type /XObject\r\n")
  ++ asciiStr ("/Subtype /Image\r\n")
  ++ (asciiStr ("/Name /") ++ img.name ++ asciiStr ("\r\n"))
  ++ (asciiStr ("/Width ") ++ intStr img.width ++ asciiStr ("\r\n"))
  ++ (asciiStr ("/Height ") ++ intStr img.height ++ asciiStr ("\r\n"))
  ++ asciiStr ("/BitsPerComponent 8\r\n")
  ++ asciiStr ("/ColorSpace /DeviceRGB\r\n")
  ++ asciiStr ("/Filter [ /ASCII85Decode /FlateDecode ]\r\n")
  ++ asciiStr ("/Predictor 1\r\n")
  ++ (asciiStr ("/Length ") ++ natStr img.ascii85data.length ++ asciiStr ("\r\n"))
  ++ asciiStr (">>\r\n")
  ++ asciiStr ("stream\r\n")
  ++ img.ascii85data
  ++ asciiStr ("endstream\r\n")
  ++ asciiStr ("endobj\r\n")

/-- The concatenated content stream of `PdfPageContent.bytes`. -/
def contentStream (p : PageSt) : ByteStr :=
  asciiStr ("BT\r\n") ++ p.text ++ asciiStr ("\r\nET\r\n") ++ p.lines
  ++ asciiStr ("S\r\n") ++ p.graphics

/-- Model of `PdfPageContent.bytes`: `/Length` is the exact stream byte length;
again no terminator between the stream body and `endstream`. -/
def contentBytes (p : PageSt) : ByteStr :=
  natStr p.contentId ++ asciiStr (" 0 obj\r\n")
  ++ asciiStr ("<<\r\n")
  ++ (asciiStr ("/Length ") ++ natStr (contentStream p).length ++ asciiStr ("\r\n"))
  ++ asciiStr (">>\r\n")
  ++ asciiStr ("stream\r\n")
  ++ contentStream p
  ++ asciiStr ("endstream\r\n")
  ++ asciiStr ("endobj\r\n")

/-- Model of `PdfPage.bytes` (parent and resources are always the document's
pages-tree and resources objects). -/
def pageBytes (d : PdfDocument) (p : PageSt) : ByteStr :=
  natStr p.id ++ asciiStr (" 0 obj\r\n")
  ++ asciiStr ("<<\r\n")
  ++ asciiStr ("/Type /Page\r\n")
  ++ (asciiStr ("/Parent ") ++ objectRef d.pagesTreeId ++ asciiStr ("\r\n"))
  ++ (asciiStr ("/Resources ") ++ objectRef d.resourcesId ++ asciiStr ("\r\n"))
  ++ (asciiStr ("/Contents ") ++ objectRef p.contentId ++ asciiStr ("\r\n"))
  ++ asciiStr (">>\r\n")
  ++ asciiStr ("endobj\r\n")

/-- Model of `PdfPages.bytes`. -/
def pagesTreeBytes (d : PdfDocument) : ByteStr :=
  natStr d.pagesTreeId ++ asciiStr (" 0 obj\r\n")
  ++ asciiStr ("<<\r\n")
  ++ asciiStr ("/Type /Pages\r\n")
  ++ asciiStr ("/MediaBox [ 0 0 595 842 ]\r\n")
  ++ (asciiStr ("/Count ") ++ natStr d.pages.length ++ asciiStr ("\r\n"))
  ++ asciiStr ("/Kids [ ")
  ++ cat (d.pages.map (fun p => objectRef p.id ++ [32]))
  ++ asciiStr ("]\r\n")
  ++ asciiStr (">>\r\n")
  ++ asciiStr ("endobj\r\n")

/-- Model of `PdfOutlines.bytes`. -/
def outlinesBytes (d : PdfDocument) : ByteStr :=
  natStr d.outlinesId ++ asciiStr (" 0 obj\r\n")
  ++ asciiStr ("<<\r\n")
  ++ asciiStr ("/Type /Outlines\r\n")
  ++ asciiStr ("/Count 0\r\n")
  ++ asciiStr (">>\r\n")
  ++ asciiStr ("endobj\r\n")

/-- Model of `PdfCatalog.bytes`. -/
def catalogBytes (d : PdfDocument) : ByteStr :=
  natStr d.catalogId ++ asciiStr (" 0 obj\r\n")
  ++ asciiStr ("<<\r\n")
  ++ asciiStr ("/Type /Catalog \r\n")
  ++ (asciiStr ("/Outlines ") ++ objectRef d.outlinesId ++ asciiStr ("\r\n"))
  ++ (asciiStr ("/Pages ") ++ objectRef d.pagesTreeId ++ asciiStr ("\r\n"))
  ++ asciiStr (">>\r\n")
  ++ asciiStr ("endobj\r\n")

/-- Model of `PdfResources.bytes`. -/
def resourcesBytes (d : PdfDocument) : ByteStr :=
  let procset := asciiStr ("[ /PDF ")
    ++ (if 0 < d.fonts.length then asciiStr ("/Text ") else [])
    ++ (if 0 < d.images.length then asciiStr ("/ImageB ") else [])
    ++ asciiStr ("]")
  natStr d.resourcesId ++ asciiStr (" 0 obj\r\n")
  ++ asciiStr ("<<\r\n")
  ++ (asciiStr ("/Procset ") ++ procset ++ asciiStr ("\r\n"))
  ++ (if 0 < d.fonts.length then
        asciiStr ("/Font << ")
        ++ cat (d.fonts.map (fun f => asciiStr ("/") ++ f.name ++ [32]
              ++ objectRef f.id ++ [32]))
        ++ asciiStr (">>\r\n")
      else [])
  ++ (if 0 < d.images.length then
        asciiStr ("/XObject << ")
        ++ cat (d.images.map (fun img => asciiStr ("/") ++ img.name ++ [32]
              ++ objectRef img.id ++ [32]))
        ++ asciiStr (">>\r\n")
      else [])
  ++ asciiStr (">>\r\n")
  ++ asciiStr ("endobj\r\n")

/-- Dispatch of `obj.bytes()` over the heterogeneous object list. -/
def objBytes (d : PdfDocument) : ObjTag → ByteStr
  | .catalog => catalogBytes d
  | .pagesTree => pagesTreeBytes d
  | .outlines => outlinesBytes d
  | .resources => resourcesBytes d
  | .page i => pageBytes d (d.pages.getD i dfltPage)
  | .content i => contentBytes (d.pages.getD i dfltPage)
  | .font i => fontBytes (d.fonts.getD i dfltFont)
  | .image i => imageBytes (d.images.getD i dfltImage)

/-- The `%PDF-1.2` header line followed by the binary-marker comment
(`%` then the UTF-8 bytes of U+00E2 U+00E3 U+00CF U+00D3, then CRLF). -/
def headerBytes : ByteStr :=
  asciiStr ("%PDF-1.2\r\n") ++ [37, 195, 162, 195, 163, 195, 143, 195, 147, 13, 10]

/-- The serializer's object loop: starting from the buffer `buf`, record
the current buffer length as each object's offset, then append its bytes.
Returns the extended buffer and the recorded offsets. -/
def writeObjs (d : PdfDocument) : List ObjTag → ByteStr → ByteStr × List Nat
  | [], buf => (buf, [])
  | t :: ts, buf =>
      let off := buf.length
      let r := writeObjs d ts (buf ++ objBytes d t)
      (r.1, off :: r.2)

/-- Model of `PdfDocument.Bytes`: header, objects, xref table, trailer. -/
def Bytes (d : PdfDocument) : ByteStr :=
  let r := writeObjs d d.objects headerBytes
  let body := r.1
  let xref := r.2
  let startxref := body.length
  body
  ++ asciiStr ("xref\r\n")
  ++ (asciiStr ("0 ") ++ natStr (d.objects.length + 1) ++ asciiStr (" \r\n"))
  ++ asciiStr ("0000000000 65535 f\r\n")
  ++ cat (xref.map (fun off => pad10 off ++ asciiStr (" 00000 n\r\n")))
  ++ asciiStr ("trailer\r\n")
  ++ asciiStr ("<<\r\n")
  ++ (asciiStr ("/Size ") ++ natStr xref.length ++ asciiStr ("\r\n"))
  ++ (asciiStr ("/Root ") ++ objectRef d.catalogId ++ asciiStr ("\r\n"))
  ++ asciiStr (">> \r\n")
  ++ asciiStr ("startxref\r\n")
  ++ (natStr startxref ++ asciiStr ("\r\n"))
  ++ asciiStr ("%%EOF\r\n")

/-- The offsets recorded by the serializer's object loop. -/
def xrefOffsets (d : PdfDocument) : List Nat :=
  (writeObjs d d.objects headerBytes).2

/-- The byte offset the serializer records for the xref table and writes
after `startxref`. -/
def startxrefVal (d : PdfDocument) : Nat :=
  (writeObjs d d.objects headerBytes).1.length

/-- Partial-sum characterisation of offsets: byte position of the `i`-th
object, counted from a fixed header. -/
def offsetAt (d : PdfDocument) (i : Nat) : Nat :=
  headerBytes.length + (cat ((d.objects.take i).map (objBytes d))).length

/-! ## List helpers -/

theorem getD_set_self {α : Type} (l : List α) (i : Nat) (x d : α)
    (h : i < l.length) : (l.set i x).getD i d = x := by
  induction l generalizing i with
  | nil => simp at h
  | cons a l ih =>
      cases i with
      | zero => rfl
      | succ i => exact ih i (by simpa using h)

theorem getD_set_ne {α : Type} (l : List α) (i j : Nat) (x d : α)
    (h : i ≠ j) : (l.set i x).getD j d = l.getD j d := by
  induction l generalizing i j with
  | nil => simp
  | cons a l ih =>
      cases i with
      | zero => cases j with
        | zero => exact absurd rfl h
        | succ j => rfl
      | succ i => cases j with
        | zero => rfl
        | succ j => exact ih i j (fun hc => h (by omega))

theorem getD_append_self {α : Type} (l : List α) (x d : α) :
    (l ++ [x]).getD l.length d = x := by
  induction l with
  | nil => rfl
  | cons a l ih => simp [ih]

/-! ## Characterising the serializer loop -/

/-- Offsets of consecutive chunks laid out from byte position `base`. -/
def offsetsFrom (base : Nat) : List ByteStr → List Nat
  | [] => []
  | b :: bs => base :: offsetsFrom (base + b.length) bs

theorem offsetsFrom_length (bs : List ByteStr) :
    ∀ base, (offsetsFrom base bs).length = bs.length := by
  induction bs with
  | nil => intro base; rfl
  | cons b bs ih => intro base; simp [offsetsFrom, ih]

theorem offsetsFrom_getElem? (bs : List ByteStr) :
    ∀ base i, i < bs.length →
      (offsetsFrom base bs)[i]? = some (base + (cat (bs.take i)).length) := by
  induction bs with
  | nil => intro base i h; simp at h
  | cons b bs ih =>
      intro base i h
      cases i with
      | zero => simp [offsetsFrom]
      | succ i =>
          have := ih (base + b.length) i (by simpa using h)
          simp [offsetsFrom, this, List.length_append, Nat.add_assoc]

theorem writeObjs_fst (d : PdfDocument) (ts : List ObjTag) :
    ∀ buf, (writeObjs d ts buf).1 = buf ++ cat (ts.map (objBytes d)) := by
  induction ts with
  | nil => intro buf; simp [writeObjs]
  | cons t ts ih => intro buf; simp [writeObjs, ih, List.append_assoc]

theorem writeObjs_snd (d : PdfDocument) (ts : List ObjTag) :
    ∀ buf, (writeObjs d ts buf).2 = offsetsFrom buf.length (ts.map (objBytes d)) := by
  induction ts with
  | nil => intro buf; simp [writeObjs, offsetsFrom]
  | cons t ts ih =>
      intro buf
      simp [writeObjs, offsetsFrom, ih, List.length_append]

theorem xrefOffsets_getElem? (d : PdfDocument) (i : Nat) (h : i < d.objects.length) :
    (xrefOffsets d)[i]? = some (offsetAt d i) := by
  rw [xrefOffsets, writeObjs_snd, offsetsFrom_getElem? _ _ i (by simpa using h),
    offsetAt, ← List.map_take]

theorem xrefOffsets_length (d : PdfDocument) :
    (xrefOffsets d).length = d.objects.length := by
  rw [xrefOffsets, writeObjs_snd, offsetsFrom_length, List.length_map]

/-- Everything the serializer writes after the object bodies: xref table
and trailer. -/
def tailChunk (d : PdfDocument) : ByteStr :=
  asciiStr ("xref\r\n")
  ++ (asciiStr ("0 ") ++ natStr (d.objects.length + 1) ++ asciiStr (" \r\n"))
  ++ asciiStr ("0000000000 65535 f\r\n")
  ++ cat ((xrefOffsets d).map (fun off => pad10 off ++ asciiStr (" 00000 n\r\n")))
  ++ asciiStr ("trailer\r\n")
  ++ asciiStr ("<<\r\n")
  ++ (asciiStr ("/Size ") ++ natStr (xrefOffsets d).length ++ asciiStr ("\r\n"))
  ++ (asciiStr ("/Root ") ++ objectRef d.catalogId ++ asciiStr ("\r\n"))
  ++ asciiStr (">> \r\n")
  ++ asciiStr ("startxref\r\n")
  ++ (natStr (startxrefVal d) ++ asciiStr ("\r\n"))
  ++ asciiStr ("%%EOF\r\n")

/-- Serialization of `Bytes` decomposed: header, object bodies, xref/trailer tail. -/
theorem Bytes_decomp (d : PdfDocument) :
    Bytes d = headerBytes ++ cat (d.objects.map (objBytes d)) ++ tailChunk d := by
  rw [Bytes, writeObjs_fst, tailChunk]
  simp [xrefOffsets, startxrefVal, writeObjs_fst, List.append_assoc]

theorem drop_of_eq_append (l a b : ByteStr) (n : Nat)
    (hl : l = a ++ b) (hn : n = a.length) : l.drop n = b := by
  subst hl; subst hn; exact List.drop_left a b

/-- Splitting the concatenated bodies at object `i`. -/
theorem cat_map_split (d : PdfDocument) (i : Nat) (h : i < d.objects.length) :
    cat (d.objects.map (objBytes d))
      = cat ((d.objects.take i).map (objBytes d))
        ++ (objBytes d (d.objects.getD i ObjTag.catalog)
            ++ cat ((d.objects.drop (i + 1)).map (objBytes d))) := by
  have h1 : d.objects
      = d.objects.take i ++ (d.objects.getD i ObjTag.catalog :: d.objects.drop (i + 1)) := by
    conv_lhs => rw [← List.take_append_drop i d.objects]
    congr 1
    rw [List.getD_eq_getElem _ _ h]
    exact (List.get_drop_eq_drop d.objects i h).symm
  conv_lhs => rw [h1]
  rw [List.map_append, cat_append, List.map_cons, cat_cons]

/-- Seeking to the recorded offset of object `i` lands exactly on that
object's rendered bytes. -/
theorem Bytes_drop_offsetAt (d : PdfDocument) (i : Nat) (h : i < d.objects.length) :
    (Bytes d).drop (offsetAt d i)
      = objBytes d (d.objects.getD i ObjTag.catalog)
        ++ (cat ((d.objects.drop (i + 1)).map (objBytes d)) ++ tailChunk d) := by
  refine drop_of_eq_append _
    (headerBytes ++ cat ((d.objects.take i).map (objBytes d))) _ _ ?_ ?_
  · rw [Bytes_decomp, cat_map_split d i h]
    simp [List.append_assoc]
  · simp [offsetAt]

/-- Seeking to the recorded `startxref` value lands exactly on the xref
table. -/
theorem Bytes_drop_startxref (d : PdfDocument) :
    (Bytes d).drop (startxrefVal d) = tailChunk d := by
  refine drop_of_eq_append _
    (headerBytes ++ cat (d.objects.map (objBytes d))) _ _ ?_ ?_
  · rw [Bytes_decomp]
  · rw [startxrefVal, writeObjs_fst]

/-! ## The byte-structure template

The specification describes each object body as
`<id> 0 obj\r\n<<...>>\r\n`, streams inserting `stream\r\n...endstream\r\n`,
then `endobj\r\n`.  `objDict` is the dictionary interior and `objStream`
the optional stream payload of that description; `specBody` assembles
them in the described shape. -/

/-- Dictionary interior (the bytes between `<<\r\n` and `>>\r\n`). -/
def objDict (d : PdfDocument) : ObjTag → ByteStr
  | .catalog =>
      asciiStr ("/Type /Catalog \r\n")
      ++ (asciiStr ("/Outlines ") ++ objectRef d.outlinesId ++ asciiStr ("\r\n"))
      ++ (asciiStr ("/Pages ") ++ objectRef d.pagesTreeId ++ asciiStr ("\r\n"))
  | .pagesTree =>
      asciiStr ("/Type /Pages\r\n")
      ++ asciiStr ("/MediaBox [ 0 0 595 842 ]\r\n")
      ++ (asciiStr ("/Count ") ++ natStr d.pages.length ++ asciiStr ("\r\n"))
      ++ asciiStr ("/Kids [ ")
      ++ cat (d.pages.map (fun p => objectRef p.id ++ [32]))
      ++ asciiStr ("]\r\n")
  | .outlines =>
      asciiStr ("/Type /Outlines\r\n") ++ asciiStr ("/Count 0\r\n")
  | .resources =>
      (asciiStr ("/Procset ")
        ++ (asciiStr ("[ /PDF ")
            ++ (if 0 < d.fonts.length then asciiStr ("/Text ") else [])
            ++ (if 0 < d.images.length then asciiStr ("/ImageB ") else [])
            ++ asciiStr ("]"))
        ++ asciiStr ("\r\n"))
      ++ (if 0 < d.fonts.length then
            asciiStr ("/Font << ")
            ++ cat (d.fonts.map (fun f => asciiStr ("/") ++ f.name ++ [32]
                  ++ objectRef f.id ++ [32]))
            ++ asciiStr (">>\r\n")
          else [])
      ++ (if 0 < d.images.length then
            asciiStr ("/XObject << ")
            ++ cat (d.images.map (fun img => asciiStr ("/") ++ img.name ++ [32]
                  ++ objectRef img.id ++ [32]))
            ++ asciiStr (">>\r\n")
          else [])
  | .page i =>
      asciiStr ("/Type /Page\r\n")
      ++ (asciiStr ("/Parent ") ++ objectRef d.pagesTreeId ++ asciiStr ("\r\n"))
      ++ (asciiStr ("/Resources ") ++ objectRef d.resourcesId ++ asciiStr ("\r\n"))
      ++ (asciiStr ("/Contents ") ++ objectRef (d.pages.getD i dfltPage).contentId
          ++ asciiStr ("\r\n"))
  | .content i =>
      asciiStr ("/Length ")
      ++ natStr (contentStream (d.pages.getD i dfltPage)).length ++ asciiStr ("\r\n")
  | .font i =>
      let f := d.fonts.getD i dfltFont
      asciiStr ("/Type /Font \r\n")
      ++ (asciiStr ("/Subtype /") ++ f.subtype ++ asciiStr (" \r\n"))
      ++ (asciiStr ("/Name /") ++ f.name ++ asciiStr (" \r\n"))
      ++ (asciiStr ("/BaseFont /") ++ f.baseFont ++ asciiStr (" \r\n"))
      ++ (if f.encoding = asciiStr ("StandardEncoding") then []
          else asciiStr ("/Encoding /") ++ f.encoding ++ asciiStr ("\r\n"))
  | .image i =>
      let img := d.images.getD i dfltImage
      asciiStr ("/Type /XObject\r\n")
      ++ asciiStr ("/Subtype /Image\r\n")
      ++ (asciiStr ("/Name /") ++ img.name ++ asciiStr ("\r\n"))
      ++ (asciiStr ("/Width ") ++ intStr img.width ++ asciiStr ("\r\n"))
      ++ (asciiStr ("/Height ") ++ intStr img.height ++ asciiStr ("\r\n"))
      ++ asciiStr ("/BitsPerComponent 8\r\n")
      ++ asciiStr ("/ColorSpace /DeviceRGB\r\n")
      ++ asciiStr ("/Filter [ /ASCII85Decode /FlateDecode ]\r\n")
      ++ asciiStr ("/Predictor 1\r\n")
      ++ (asciiStr ("/Length ") ++ natStr img.ascii85data.length ++ asciiStr ("\r\n"))

/-- The stream payload of a stream object (`none` for non-stream objects). -/
def objStream (d : PdfDocument) : ObjTag → Option ByteStr
  | .content i => some (contentStream (d.pages.getD i dfltPage))
  | .image i => some (d.images.getD i dfltImage).ascii85data
  | _ => none

/-- One object body in the shape the byte-structure description uses:
`<id> 0 obj\r\n<<\r\n`, the dictionary interior, `>>\r\n`, for stream
objects `stream\r\n`, the payload, `endstream\r\n` (note: nothing between
the payload and `endstream`), then `endobj\r\n`. -/
def specBody (d : PdfDocument) (t : ObjTag) : ByteStr :=
  natStr (objId d t) ++ asciiStr (" 0 obj\r\n") ++ asciiStr ("<<\r\n")
  ++ objDict d t ++ asciiStr (">>\r\n")
  ++ (match objStream d t with
      | none => []
      | some s => asciiStr ("stream\r\n") ++ s ++ asciiStr ("endstream\r\n"))
  ++ asciiStr ("endobj\r\n")

/-- Every rendered object matches the template shape. -/
theorem objBytes_eq_specBody (d : PdfDocument) (t : ObjTag) :
    objBytes d t = specBody d t := by
  cases t with
  | catalog =>
      simp [objBytes, catalogBytes, specBody, objDict, objStream, objId, List.append_assoc]
  | pagesTree =>
      simp [objBytes, pagesTreeBytes, specBody, objDict, objStream, objId, List.append_assoc]
  | outlines =>
      simp [objBytes, outlinesBytes, specBody, objDict, objStream, objId, List.append_assoc]
  | resources =>
      simp [objBytes, resourcesBytes, specBody, objDict, objStream, objId, List.append_assoc]
  | page i =>
      simp [objBytes, pageBytes, specBody, objDict, objStream, objId, List.append_assoc]
  | content i =>
      simp [objBytes, contentBytes, specBody, objDict, objStream, objId, List.append_assoc]
  | font i =>
      simp [objBytes, fontBytes, specBody, objDict, objStream, objId, List.append_assoc]
  | image i =>
      simp [objBytes, imageBytes, specBody, objDict, objStream, objId, List.append_assoc]

/-- Every rendered object begins with its `<id> 0 obj\r\n` header line. -/
theorem idHeader_prefix_objBytes (d : PdfDocument) (t : ObjTag) :
    (natStr (objId d t) ++ asciiStr (" 0 obj\r\n")) <+: objBytes d t := by
  rw [objBytes_eq_specBody, specBody]
  exact ((((List.prefix_append _ _).trans (List.prefix_append _ _)).trans
    (List.prefix_append _ _)).trans (List.prefix_append _ _)).trans
    (List.prefix_append _ _)

/-! ## The reachability invariant -/

/-- Invariant maintained by every API call: stored ids are dense and
positional (the `k`-th registered object carries id `k+1`), every page's
buffers extend the `addPage` preambles, and every image payload is the
base-85 encoding of some compressed input. -/
structure Inv (d : PdfDocument) : Prop where
  ids : ∀ k, k < d.objects.length →
    objId d (d.objects.getD k ObjTag.catalog) = k + 1
  text_pre : ∀ p ∈ d.pages, textPreamble <+: p.text
  graphics_pre : ∀ p ∈ d.pages, graphicsPreamble <+: p.graphics
  img_enc : ∀ img ∈ d.images, ∃ c, img.ascii85data = ascii85Encode c

theorem getD_mem_of_lt {α : Type} (l : List α) (i : Nat) (d : α)
    (h : i < l.length) : l.getD i d ∈ l := by
  rw [List.getD_eq_getElem _ _ h]; exact List.getElem_mem h

/-- The value `objId` is unchanged for an old tag when the entity lists only grow on
the right (id 0 is never a registered id, which rules out the default). -/
theorem objId_extend (d d' : PdfDocument) (t : ObjTag) (k : Nat)
    (hcat : d'.catalogId = d.catalogId) (hpt : d'.pagesTreeId = d.pagesTreeId)
    (hol : d'.outlinesId = d.outlinesId) (hres : d'.resourcesId = d.resourcesId)
    (hpages : ∃ l, d'.pages = d.pages ++ l)
    (hfonts : ∃ l, d'.fonts = d.fonts ++ l)
    (himages : ∃ l, d'.images = d.images ++ l)
    (h : objId d t = k + 1) : objId d' t = k + 1 := by
  cases t with
  | catalog => rw [objId, hcat]; exact h
  | pagesTree => rw [objId, hpt]; exact h
  | outlines => rw [objId, hol]; exact h
  | resources => rw [objId, hres]; exact h
  | page i =>
      obtain ⟨l, hl⟩ := hpages
      rw [objId, hl]
      by_cases hil : i < d.pages.length
      · rw [List.getD_append _ _ _ _ hil]; exact h
      · rw [objId, List.getD_eq_default _ _ (Nat.le_of_not_lt hil)] at h
        simp [dfltPage] at h
  | content i =>
      obtain ⟨l, hl⟩ := hpages
      rw [objId, hl]
      by_cases hil : i < d.pages.length
      · rw [List.getD_append _ _ _ _ hil]; exact h
      · rw [objId, List.getD_eq_default _ _ (Nat.le_of_not_lt hil)] at h
        simp [dfltPage] at h
  | font i =>
      obtain ⟨l, hl⟩ := hfonts
      rw [objId, hl]
      by_cases hil : i < d.fonts.length
      · rw [List.getD_append _ _ _ _ hil]; exact h
      · rw [objId, List.getD_eq_default _ _ (Nat.le_of_not_lt hil)] at h
        simp [dfltFont] at h
  | image i =>
      obtain ⟨l, hl⟩ := himages
      rw [objId, hl]
      by_cases hil : i < d.images.length
      · rw [List.getD_append _ _ _ _ hil]; exact h
      · rw [objId, List.getD_eq_default _ _ (Nat.le_of_not_lt hil)] at h
        simp [dfltImage] at h

/-- The value `objId` is unchanged when a page is replaced by one with the same
stored ids. -/
theorem objId_set_page (d : PdfDocument) (pi : Nat) (p' : PageSt) (t : ObjTag)
    (k : Nat)
    (hid : p'.id = (d.pages.getD pi dfltPage).id)
    (hcid : p'.contentId = (d.pages.getD pi dfltPage).contentId)
    (h : objId d t = k + 1) :
    objId { d with pages := d.pages.set pi p' } t = k + 1 := by
  cases t with
  | catalog => exact h
  | pagesTree => exact h
  | outlines => exact h
  | resources => exact h
  | page i =>
      rw [objId]
      by_cases hip : pi = i
      · subst hip
        by_cases hlt : pi < d.pages.length
        · simp only [getD_set_self _ _ _ _ hlt, hid]; exact h
        · rw [List.set_eq_of_length_le (Nat.le_of_not_lt hlt)]; exact h
      · rw [getD_set_ne _ _ _ _ _ hip]; exact h
  | content i =>
      rw [objId]
      by_cases hip : pi = i
      · subst hip
        by_cases hlt : pi < d.pages.length
        · simp only [getD_set_self _ _ _ _ hlt, hcid]; exact h
        · rw [List.set_eq_of_length_le (Nat.le_of_not_lt hlt)]; exact h
      · rw [getD_set_ne _ _ _ _ _ hip]; exact h
  | font i => exact h
  | image i => exact h

/-- Invariant preservation for the page-mutating calls: the new page keeps
its ids and only appends to its text and graphics buffers. -/
theorem inv_set_page (d : PdfDocument) (hinv : Inv d) (pi : Nat)
    (hpi : pi < d.pages.length) (p' : PageSt)
    (hid : p'.id = (d.pages.getD pi dfltPage).id)
    (hcid : p'.contentId = (d.pages.getD pi dfltPage).contentId)
    (htext : ∃ s, p'.text = (d.pages.getD pi dfltPage).text ++ s)
    (hgr : ∃ s, p'.graphics = (d.pages.getD pi dfltPage).graphics ++ s) :
    Inv { d with pages := d.pages.set pi p' } := by
  have hmem : d.pages.getD pi dfltPage ∈ d.pages := getD_mem_of_lt _ _ _ hpi
  constructor
  · intro k hk
    exact objId_set_page d pi p' _ k hid hcid (hinv.ids k hk)
  · intro p hp
    rcases List.mem_or_eq_of_mem_set hp with hold | hnew
    · exact hinv.text_pre p hold
    · subst hnew
      obtain ⟨s, hs⟩ := htext
      rw [hs]
      exact (hinv.text_pre _ hmem).trans (List.prefix_append _ _)
  · intro p hp
    rcases List.mem_or_eq_of_mem_set hp with hold | hnew
    · exact hinv.graphics_pre p hold
    · subst hnew
      obtain ⟨s, hs⟩ := hgr
      rw [hs]
      exact (hinv.graphics_pre _ hmem).trans (List.prefix_append _ _)
  · exact hinv.img_enc

theorem inv_addPage (d : PdfDocument) (hinv : Inv d) : Inv (addPage d) := by
  constructor
  · intro k hk
    have hk2 : k < d.objects.length + 2 := by
      simpa [addPage] using hk
    show objId (addPage d)
      ((d.objects ++ [ObjTag.page d.pages.length, ObjTag.content d.pages.length]).getD
        k ObjTag.catalog) = k + 1
    rcases Nat.lt_trichotomy k d.objects.length with h1 | h1 | h1
    · rw [List.getD_append _ _ _ _ h1]
      exact objId_extend d (addPage d) _ k rfl rfl rfl rfl ⟨_, rfl⟩ ⟨[], by simp [addPage]⟩
        ⟨[], by simp [addPage]⟩ (hinv.ids k h1)
    · subst h1
      rw [List.getD_append_right _ _ _ _ (Nat.le_refl _), Nat.sub_self]
      show objId (addPage d) (ObjTag.page d.pages.length) = d.objects.length + 1
      rw [objId]
      show ((d.pages ++ [_]).getD d.pages.length dfltPage).id = d.objects.length + 1
      rw [getD_append_self]
    · have hk1 : k = d.objects.length + 1 := by omega
      subst hk1
      rw [List.getD_append_right _ _ _ _ (by omega)]
      have : d.objects.length + 1 - d.objects.length = 1 := by omega
      rw [this]
      show objId (addPage d) (ObjTag.content d.pages.length) = d.objects.length + 1 + 1
      rw [objId]
      show ((d.pages ++ [_]).getD d.pages.length dfltPage).contentId
        = d.objects.length + 1 + 1
      rw [getD_append_self]
  · intro p hp
    rcases (by simpa [addPage] using hp : p ∈ d.pages ∨ p = _) with hold | hnew
    · exact hinv.text_pre p hold
    · subst hnew; exact List.prefix_refl _
  · intro p hp
    rcases (by simpa [addPage] using hp : p ∈ d.pages ∨ p = _) with hold | hnew
    · exact hinv.graphics_pre p hold
    · subst hnew; exact List.prefix_refl _
  · intro img himg
    exact hinv.img_enc img (by simpa [addPage] using himg)

theorem inv_addFont (d d' : PdfDocument) (name : ByteStr) (fid : Int)
    (hinv : Inv d) (h : addFont d name fid = some d') : Inv d' := by
  rw [addFont] at h
  cases hnf : NewFont name fid with
  | none => rw [hnf] at h; exact absurd h (by simp)
  | some f =>
      rw [hnf] at h
      injection h with h
      subst h
      constructor
      · intro k hk
        have hk2 : k < d.objects.length + 1 := by simpa using hk
        show objId _ ((d.objects ++ [ObjTag.font d.fonts.length]).getD k ObjTag.catalog)
          = k + 1
        rcases Nat.lt_or_ge k d.objects.length with h1 | h1
        · rw [List.getD_append _ _ _ _ h1]
          exact objId_extend d _ _ k rfl rfl rfl rfl ⟨[], by simp⟩ ⟨_, rfl⟩ ⟨[], by simp⟩
            (hinv.ids k h1)
        · have hk1 : k = d.objects.length := by omega
          subst hk1
          rw [List.getD_append_right _ _ _ _ (Nat.le_refl _), Nat.sub_self]
          show objId _ (ObjTag.font d.fonts.length) = d.objects.length + 1
          rw [objId]
          show ((d.fonts ++ [_]).getD d.fonts.length dfltFont).id = d.objects.length + 1
          rw [getD_append_self]
      · exact hinv.text_pre
      · exact hinv.graphics_pre
      · exact hinv.img_enc

theorem inv_addImage (d : PdfDocument) (name : ByteStr) (w h : Int)
    (compressed : ByteStr) (hinv : Inv d) : Inv (addImage d name w h compressed) := by
  constructor
  · intro k hk
    have hk2 : k < d.objects.length + 1 := by simpa [addImage] using hk
    show objId _ ((d.objects ++ [ObjTag.image d.images.length]).getD k ObjTag.catalog)
      = k + 1
    rcases Nat.lt_or_ge k d.objects.length with h1 | h1
    · rw [List.getD_append _ _ _ _ h1]
      exact objId_extend d _ _ k rfl rfl rfl rfl ⟨[], by simp [addImage]⟩
        ⟨[], by simp [addImage]⟩ ⟨_, rfl⟩ (hinv.ids k h1)
    · have hk1 : k = d.objects.length := by omega
      subst hk1
      rw [List.getD_append_right _ _ _ _ (Nat.le_refl _), Nat.sub_self]
      show objId _ (ObjTag.image d.images.length) = d.objects.length + 1
      rw [objId]
      show ((d.images ++ [_]).getD d.images.length dfltImage).id = d.objects.length + 1
      rw [getD_append_self]
  · exact hinv.text_pre
  · exact hinv.graphics_pre
  · intro img himg
    rcases (by simpa [addImage] using himg : img ∈ d.images ∨ img = _) with hold | hnew
    · exact hinv.img_enc img hold
    · subst hnew; exact ⟨compressed, rfl⟩

theorem inv_pageUpdate (d d' : PdfDocument) (pi : Nat) (f : PageSt → PageSt)
    (hinv : Inv d)
    (hid : ∀ p, (f p).id = p.id) (hcid : ∀ p, (f p).contentId = p.contentId)
    (htext : ∀ p, ∃ s, (f p).text = p.text ++ s)
    (hgr : ∀ p, ∃ s, (f p).graphics = p.graphics ++ s)
    (h : pageUpdate d pi f = some d') : Inv d' := by
  rw [pageUpdate] at h
  split at h
  · injection h with h
    subst h
    exact inv_set_page d hinv pi (by assumption) _ (hid _) (hcid _) (htext _) (hgr _)
  · exact absurd h (by simp)

theorem inv_applyOp (d d' : PdfDocument) (op : Op) (hinv : Inv d)
    (h : applyOp d op = some d') : Inv d' := by
  cases op with
  | addPage =>
      injection h with h
      subst h
      exact inv_addPage d hinv
  | addFont name code => exact inv_addFont d d' name code hinv h
  | addImage name w hh c =>
      injection h with h
      subst h
      exact inv_addImage d name w hh c hinv
  | setFont pi name =>
      simp only [applyOp, setFont] at h
      split at h
      · split at h
        · exact absurd h (by simp)
        · injection h with h
          subst h
          exact inv_set_page d hinv pi (by assumption) _ rfl rfl ⟨_, rfl⟩
            ⟨[], (List.append_nil _).symm⟩
      · exact absurd h (by simp)
  | setFontSize pi s =>
      simp only [applyOp, setFontSize] at h
      split at h
      · split at h
        · exact absurd h (by simp)
        · injection h with h
          subst h
          exact inv_set_page d hinv pi (by assumption) _ rfl rfl ⟨_, rfl⟩
            ⟨[], (List.append_nil _).symm⟩
      · exact absurd h (by simp)
  | outputText pi t =>
      have h' : pageUpdate d pi (fun p => outputText p t) = some d' := h
      exact inv_pageUpdate d d' pi (fun p => outputText p t) hinv (fun p => rfl) (fun p => rfl)
        (fun p => ⟨_, rfl⟩) (fun p => ⟨[], (List.append_nil _).symm⟩) h'
  | print pi t =>
      have h' : pageUpdate d pi (fun p => printText p t) = some d' := h
      exact inv_pageUpdate d d' pi (fun p => printText p t) hinv (fun p => rfl) (fun p => rfl)
        (fun p => ⟨_, rfl⟩) (fun p => ⟨[], (List.append_nil _).symm⟩) h'
  | println pi t =>
      have h' : pageUpdate d pi (fun p => printlnText p t) = some d' := h
      exact inv_pageUpdate d d' pi (fun p => printlnText p t) hinv (fun p => rfl) (fun p => rfl)
        (fun p => ⟨_, rfl⟩) (fun p => ⟨[], (List.append_nil _).symm⟩) h'
  | drawImage pi name x y =>
      simp only [applyOp, drawImage] at h
      split at h
      · split at h
        · exact absurd h (by simp)
        · injection h with h
          subst h
          exact inv_set_page d hinv pi (by assumption) _ rfl rfl
            ⟨[], (List.append_nil _).symm⟩ ⟨_, rfl⟩
      · exact absurd h (by simp)
  | drawBox pi x y w hh =>
      have h' : pageUpdate d pi (fun p => drawBox p x y w hh) = some d' := h
      exact inv_pageUpdate d d' pi (fun p => drawBox p x y w hh) hinv (fun p => rfl) (fun p => rfl)
        (fun p => ⟨[], (List.append_nil _).symm⟩)
        (fun p => ⟨[], (List.append_nil _).symm⟩) h'
  | drawLine pi a b c e =>
      have h' : pageUpdate d pi (fun p => drawLine p a b c e) = some d' := h
      exact inv_pageUpdate d d' pi (fun p => drawLine p a b c e) hinv (fun p => rfl) (fun p => rfl)
        (fun p => ⟨[], (List.append_nil _).symm⟩)
        (fun p => ⟨[], (List.append_nil _).symm⟩) h'
  | setColour pi r g b =>
      have h' : pageUpdate d pi (fun p => setColour p r g b) = some d' := h
      exact inv_pageUpdate d d' pi (fun p => setColour p r g b) hinv (fun p => rfl) (fun p => rfl)
        (fun p => ⟨_, rfl⟩) (fun p => ⟨[], (List.append_nil _).symm⟩) h'

theorem inv_runOps (ops : List Op) :
    ∀ d d', Inv d → runOps d ops = some d' → Inv d' := by
  induction ops with
  | nil =>
      intro d d' hinv h
      rw [runOps] at h
      injection h with h
      subst h
      exact hinv
  | cons op ops ih =>
      intro d d' hinv h
      rw [runOps] at h
      cases hop : applyOp d op with
      | none => rw [hop] at h; exact absurd h (by simp)
      | some dm =>
          rw [hop] at h
          exact ih dm d' (inv_applyOp d dm op hinv hop) h

theorem inv_new : Inv NewPdfDocument := by
  refine ⟨?_, ?_, ?_, ?_⟩
  · decide
  · decide
  · decide
  · intro img h
    simp [NewPdfDocument, addPage] at h

/-- Every reachable document state satisfies the invariant. -/
theorem reachable_inv (d : PdfDocument) (h : Reachable d) : Inv d := by
  obtain ⟨ops, hops⟩ := h
  exact inv_runOps ops NewPdfDocument d inv_new hops

/-! ## Behaviour of the overwriting linear scans -/

theorem scan_no_match {α : Type} (nameOf : α → ByteStr) (name : ByteStr)
    (l : List α) : ∀ n prev, (∀ a ∈ l, nameOf a ≠ name) →
      (List.enumFrom n l).foldl (scanStep nameOf name) prev = prev := by
  induction l with
  | nil => intro n prev _; rfl
  | cons a l ih =>
      intro n prev h
      show List.foldl (scanStep nameOf name) (scanStep nameOf name prev (n, a))
        (List.enumFrom (n + 1) l) = prev
      rw [scanStep]
      simp only [if_neg (h a (List.mem_cons_self a l))]
      exact ih (n + 1) prev (fun b hb => h b (List.mem_cons_of_mem a hb))

theorem scan_last_match {α : Type} (nameOf : α → ByteStr) (name : ByteStr)
    (l₁ l₂ : List α) (a : α) (prev : Option Nat)
    (ha : nameOf a = name) (h₂ : ∀ b ∈ l₂, nameOf b ≠ name) :
    ((l₁ ++ a :: l₂).enum).foldl (scanStep nameOf name) prev = some l₁.length := by
  show ((l₁ ++ a :: l₂).enumFrom 0).foldl (scanStep nameOf name) prev = some l₁.length
  rw [List.enumFrom_append, List.foldl_append]
  show List.foldl (scanStep nameOf name)
    (scanStep nameOf name _ (0 + l₁.length, a)) (List.enumFrom (0 + l₁.length + 1) l₂)
    = some l₁.length
  rw [scanStep]
  simp only [if_pos ha]
  rw [scan_no_match nameOf name l₂ _ _ h₂]
  simp

theorem findFont_no_match (fonts : List FontSt) (name : ByteStr) (prev : Option Nat)
    (h : ∀ f ∈ fonts, f.name ≠ name) : findFont fonts name prev = prev :=
  scan_no_match FontSt.name name fonts 0 prev h

theorem findFont_last_match (l₁ l₂ : List FontSt) (f : FontSt) (name : ByteStr)
    (prev : Option Nat) (hf : f.name = name) (h₂ : ∀ g ∈ l₂, g.name ≠ name) :
    findFont (l₁ ++ f :: l₂) name prev = some l₁.length :=
  scan_last_match FontSt.name name l₁ l₂ f prev hf h₂

theorem findImage_no_match (images : List ImageSt) (name : ByteStr)
    (h : ∀ img ∈ images, img.name ≠ name) : findImage images name = none :=
  scan_no_match ImageSt.name name images 0 none h

/-! ## The claims -/

/-- C4: for every document state, every name and every builtin font code
outside the 14 known values, `addFont` fails — the `NewFont` switch hits its
panicking `default` branch before anything is registered, so no successor
state exists and the document (object count, resources font list) is the
unchanged `d`. -/
theorem addFont_invalid_selector_fails (d : PdfDocument) (name : ByteStr)
    (fid : Int) (h : fid < 1 ∨ 14 < fid) : addFont d name fid = none := by
  have hnf : NewFont name fid = none := by
    unfold NewFont
    rw [if_neg (by omega : ¬ fid = 1), if_neg (by omega : ¬ fid = 2),
      if_neg (by omega : ¬ fid = 3), if_neg (by omega : ¬ fid = 4),
      if_neg (by omega : ¬ fid = 5), if_neg (by omega : ¬ fid = 6),
      if_neg (by omega : ¬ fid = 7), if_neg (by omega : ¬ fid = 8),
      if_neg (by omega : ¬ fid = 9), if_neg (by omega : ¬ fid = 10),
      if_neg (by omega : ¬ fid = 11), if_neg (by omega : ¬ fid = 12),
      if_neg (by omega : ¬ fid = 13), if_neg (by omega : ¬ fid = 14)]
  rw [addFont, hnf]

/-- C4 witness: `addFont(name, 999)` on the fresh document fails. -/
theorem addFont_invalid_selector_fails_witness :
    addFont NewPdfDocument (asciiStr ("F9")) 999 = none :=
  addFont_invalid_selector_fails NewPdfDocument (asciiStr ("F9")) 999 (by decide)

/-- Spec-side per-byte escape, from the claim's wording: the three
structurally significant bytes prefixed with `\`, every other byte
unchanged. -/
def specEscapeByte (b : Nat) : ByteStr :=
  if b = 40 ∨ b = 41 ∨ b = 92 then [92, b] else [b]

theorem escByte_eq_spec (b : Nat) : escByte b = specEscapeByte b := by
  rw [escByte, specEscapeByte]
  by_cases h40 : b = 40
  · subst h40; simp
  by_cases h41 : b = 41
  · subst h41; simp
  by_cases h92 : b = 92
  · subst h92; simp
  rw [if_neg h40, if_neg h41, if_neg h92, if_neg (by simp [h40, h41, h92])]

theorem escapeTextAux_congr :
    ∀ fuel fuel' s, s.length ≤ fuel → s.length ≤ fuel' →
      escapeTextAux fuel s = escapeTextAux fuel' s := by
  intro fuel
  induction fuel with
  | zero =>
      intro fuel' s h h'
      have hs : s = [] := List.length_eq_zero.mp (Nat.le_zero.mp h)
      subst hs
      cases fuel' <;> rfl
  | succ fuel ih =>
      intro fuel' s h h'
      cases s with
      | nil => cases fuel' <;> rfl
      | cons b rest =>
          cases fuel' with
          | zero => simp at h'
          | succ fuel'' =>
              simp only [escapeTextAux]
              congr 1
              apply ih
              · rw [List.length_drop]
                simp only [List.length_cons] at h
                omega
              · rw [List.length_drop]
                simp only [List.length_cons] at h'
                omega

theorem escapeText_cons (b : Nat) (rest : ByteStr) :
    escapeText (b :: rest)
      = escByte b ++ escapeText (rest.drop (utf8Step (b :: rest) - 1)) := by
  show escapeTextAux (b :: rest).length (b :: rest) = _
  simp only [List.length_cons, escapeTextAux]
  congr 1
  apply escapeTextAux_congr
  · rw [List.length_drop]; omega
  · exact Nat.le_refl _

theorem utf8Step_ascii (b : Nat) (rest : ByteStr) (h : b < 128) :
    utf8Step (b :: rest) = 1 := by
  simp only [utf8Step]
  rw [if_pos h]

theorem escapeText_ascii (s : ByteStr) (h : ∀ b ∈ s, b < 128) :
    escapeText s = s.flatMap specEscapeByte := by
  induction s with
  | nil => rfl
  | cons b rest ih =>
      rw [escapeText_cons, utf8Step_ascii b rest (h b (List.mem_cons_self b rest))]
      have hd : rest.drop (1 - 1) = rest := List.drop_zero rest
      rw [hd, List.flatMap_cons, escByte_eq_spec,
        ih (fun c hc => h c (List.mem_cons_of_mem b hc))]

theorem escapeText_skip_continuation (b0 b1 : Nat) (rest : ByteStr)
    (h0 : 194 ≤ b0) (h0' : b0 ≤ 223) (h1 : 128 ≤ b1) (h1' : b1 ≤ 191) :
    escapeText (b0 :: b1 :: rest) = b0 :: escapeText rest := by
  have hstep : utf8Step (b0 :: b1 :: rest) = 2 := by
    simp only [utf8Step]
    rw [if_neg (by omega : ¬ b0 < 128),
      if_pos (⟨h0, h0'⟩ : 194 ≤ b0 ∧ b0 ≤ 223),
      if_pos (⟨h1, h1'⟩ : 128 ≤ b1 ∧ b1 ≤ 191)]
  have hb : escByte b0 = [b0] := by
    rw [escByte, if_neg (by omega : ¬ b0 = 40), if_neg (by omega : ¬ b0 = 41),
      if_neg (by omega : ¬ b0 = 92)]
  rw [escapeText_cons, hstep, hb]
  have hd : (b1 :: rest).drop (2 - 1) = rest := rfl
  rw [hd]
  rfl

/-- C7 counterexample: the escaping loop is `for i := range text`, which
visits only rune start positions; on the 2-byte input `é` (bytes
`0xC3 0xA9`, neither of which is `(`, `)` or `\`) the show-text operand
keeps only the lead byte `0xC3` and drops the continuation byte, where
the claim mandates both bytes appearing unchanged. -/
theorem outputText_escaping_counterexample :
    escapeText [195, 169] = [195]
    ∧ [195, 169].flatMap specEscapeByte = [195, 169]
    ∧ (outputText dfltPage [195, 169]).text
        = tmInstr 0 0 ++ (40 :: ([195] ++ asciiStr (") Tj\r\n"))) := by
  refine ⟨by decide, by decide, by decide⟩

/-- C7 amended: `outputText` appends a show-text instruction whose
operand is produced by the byte loop over rune start positions: every
visited byte has `(`, `)` and `\` prefixed by `\` and is otherwise
unchanged, while the continuation bytes of a well-formed multi-byte UTF-8
encoding are skipped; for all-ASCII input every byte is visited, so the
operand is exactly the claimed byte-wise escaping — in particular the
operand for the 5-byte input `(a)\b` is `\(a\)\\b` verbatim. -/
theorem outputText_escaping_amended (p : PageSt) (s : ByteStr) :
    (outputText p s).text
      = p.text ++ (tmInstr p.x p.y
          ++ (40 :: (escapeText s ++ asciiStr (") Tj\r\n"))))
    ∧ ((∀ b ∈ s, b < 128) → escapeText s = s.flatMap specEscapeByte)
    ∧ (∀ b0 b1 rest, 194 ≤ b0 → b0 ≤ 223 → 128 ≤ b1 → b1 ≤ 191 →
        escapeText (b0 :: b1 :: rest) = b0 :: escapeText rest)
    ∧ escapeText (asciiStr ("(a)\\b")) = asciiStr ("\\(a\\)\\\\b") :=
  ⟨rfl, escapeText_ascii s,
    fun b0 b1 rest h0 h0' h1 h1' =>
      escapeText_skip_continuation b0 b1 rest h0 h0' h1 h1',
    by decide⟩

/-- C7 witness: the amended statement instantiated at the scenario's
all-ASCII input and at a concrete 2-byte rune followed by ASCII. -/
theorem outputText_escaping_amended_witness :
    escapeText (asciiStr ("(a)\\b"))
        = (asciiStr ("(a)\\b")).flatMap specEscapeByte
    ∧ escapeText (195 :: 169 :: asciiStr ("x"))
        = 195 :: escapeText (asciiStr ("x")) := by
  have h := outputText_escaping_amended dfltPage (asciiStr ("(a)\\b"))
  exact ⟨h.2.1 (by decide),
    h.2.2.1 195 169 (asciiStr ("x")) (by decide) (by decide) (by decide)
      (by decide)⟩

/-- C8: after every construction sequence, object ids are dense and gapless
over the registration list: the k-th registered object (0-based) carries id
`k+1`, hence the object count equals the highest issued id. -/
theorem ids_dense_gapless (d : PdfDocument) (h : Reachable d) :
    (∀ k, k < d.objects.length →
      objId d (d.objects.getD k ObjTag.catalog) = k + 1)
    ∧ (d.objects.length = 0 ∨
        objId d (d.objects.getD (d.objects.length - 1) ObjTag.catalog)
          = d.objects.length) := by
  have hinv := reachable_inv d h
  refine ⟨hinv.ids, ?_⟩
  rcases Nat.eq_zero_or_pos d.objects.length with h0 | h0
  · exact Or.inl h0
  · right
    have hlast := hinv.ids (d.objects.length - 1) (by omega)
    rw [hlast]
    omega

/-- C1: in the serialized output, the i-th cross-reference entry records
exactly the byte offset at which the i-th registered object's rendered
bytes begin — seeking there lands on that object's `<i+1> 0 obj` header —
and the value written after `startxref` is exactly the byte offset at
which the `xref` keyword begins. -/
theorem serialize_offsets_exact (d : PdfDocument) (h : Reachable d) :
    (∀ i, i < d.objects.length →
      (xrefOffsets d)[i]? = some (offsetAt d i)
      ∧ (natStr (i + 1) ++ asciiStr (" 0 obj\r\n"))
          <+: (Bytes d).drop (offsetAt d i))
    ∧ asciiStr ("xref\r\n") <+: (Bytes d).drop (startxrefVal d)
    ∧ (asciiStr ("startxref\r\n")
        ++ ((natStr (startxrefVal d) ++ asciiStr ("\r\n"))
            ++ asciiStr ("%%EOF\r\n"))) <:+ Bytes d := by
  have hinv := reachable_inv d h
  refine ⟨fun i hi => ⟨xrefOffsets_getElem? d i hi, ?_⟩, ?_, ?_⟩
  · have hpre := idHeader_prefix_objBytes d (d.objects.getD i ObjTag.catalog)
    rw [hinv.ids i hi] at hpre
    rw [Bytes_drop_offsetAt d i hi]
    exact hpre.trans (List.prefix_append _ _)
  · rw [Bytes_drop_startxref, tailChunk]
    simp only [List.append_assoc]
    exact List.prefix_append _ _
  · refine ⟨headerBytes ++ cat (d.objects.map (objBytes d))
      ++ (asciiStr ("xref\r\n")
      ++ (asciiStr ("0 ") ++ natStr (d.objects.length + 1) ++ asciiStr (" \r\n"))
      ++ asciiStr ("0000000000 65535 f\r\n")
      ++ cat ((xrefOffsets d).map (fun off => pad10 off ++ asciiStr (" 00000 n\r\n")))
      ++ asciiStr ("trailer\r\n")
      ++ asciiStr ("<<\r\n")
      ++ (asciiStr ("/Size ") ++ natStr (xrefOffsets d).length ++ asciiStr ("\r\n"))
      ++ (asciiStr ("/Root ") ++ objectRef d.catalogId ++ asciiStr ("\r\n"))
      ++ asciiStr (">> \r\n")), ?_⟩
    rw [Bytes_decomp, tailChunk]
    simp only [List.append_assoc]

/-- C1 witness: instantiated at the fresh document and its first object. -/
theorem serialize_offsets_exact_witness :
    ((xrefOffsets NewPdfDocument)[0]? = some (offsetAt NewPdfDocument 0)
      ∧ (natStr (0 + 1) ++ asciiStr (" 0 obj\r\n"))
          <+: (Bytes NewPdfDocument).drop (offsetAt NewPdfDocument 0))
    ∧ asciiStr ("xref\r\n")
        <+: (Bytes NewPdfDocument).drop (startxrefVal NewPdfDocument) := by
  have h := serialize_offsets_exact NewPdfDocument ⟨[], rfl⟩
  exact ⟨h.1 0 (by decide), h.2.1⟩

/-- The page stipulated by the C3 scenario: left margin 72, top margin 72,
page height 842, font size 10, cursor (0, 0) — a fresh page whose cursor
was moved to the origin, as the source's own `main` does by assigning
`page.x` and `page.y` directly. -/
def pageC3 : PageSt :=
  { id := 5, contentId := 6, font := none, fontSize := 10, height := 842,
    width := 595, x := 0, y := 0, leftMargin := 72, rightMargin := 72,
    topMargin := 72, bottomMargin := 72, text := textPreamble, lines := [],
    graphics := graphicsPreamble }

/-- C3 counterexample: with cursor (0, 0) the emitted positioning
instruction is `1 0 0 1 0 0 Tm` — computed from the raw cursor alone — and
the claimed `1 0 0 1 72 760 Tm` appears nowhere in the page text after the
call. -/
theorem outputText_margins_counterexample :
    (outputText pageC3 (asciiStr ("X"))).text
      = pageC3.text ++ (asciiStr ("1 0 0 1 0 0 Tm\r\n") ++ asciiStr ("(X) Tj\r\n"))
    ∧ ¬ asciiStr ("1 0 0 1 72 760 Tm")
        <:+: (outputText pageC3 (asciiStr ("X"))).text := by
  constructor
  · decide
  · decide

/-- C3 amended: `outputText` computes the positioning instruction from the
raw cursor (`1 0 0 1 <x> <y> Tm`, no margin arithmetic); the margins and
page height enter only through `addPage`, which places the fresh page's
cursor at (leftMargin, height - topMargin - fontSize) = (72, 760), so
`outputText` on a fresh untouched page emits `1 0 0 1 72 760 Tm`. -/
theorem outputText_positions_from_cursor (p : PageSt) (s : ByteStr)
    (d : PdfDocument) :
    (outputText p s).text
      = p.text ++ (tmInstr p.x p.y ++ (40 :: (escapeText s ++ asciiStr (") Tj\r\n"))))
    ∧ ((addPage d).pages.getD (addPage d).currentPage dfltPage).x = 72
    ∧ ((addPage d).pages.getD (addPage d).currentPage dfltPage).y = 760
    ∧ tmInstr 72 760 = asciiStr ("1 0 0 1 72 760 Tm\r\n") := by
  have hfresh : (addPage d).pages.getD (addPage d).currentPage dfltPage
      = { id := d.objects.length + 1, contentId := d.objects.length + 2,
          font := none, fontSize := 10, height := 842, width := 595,
          x := 72, y := 842 - 72 - 10, leftMargin := 72, rightMargin := 72,
          topMargin := 72, bottomMargin := 72, text := textPreamble,
          lines := [], graphics := graphicsPreamble } := by
    simp only [addPage]
    exact getD_append_self _ _ _
  refine ⟨rfl, ?_, ?_, by decide⟩
  · rw [hfresh]
  · rw [hfresh]
    show (842 - 72 - 10 : Int) = 760
    decide

/-- C5 counterexample: on the fresh document — whose single page has no
font bound and which has no images registered — `setFont` with an unknown
name dereferences the nil font pointer, and `drawImage` with an unknown
name dereferences a nil local image pointer: both calls fail, where the
claim says neither fails. -/
theorem unresolved_resource_counterexample :
    setFont NewPdfDocument 0 (asciiStr ("F9")) = none
    ∧ drawImage NewPdfDocument 0 (asciiStr ("gopher")) 250 550 = none := by
  constructor
  · decide
  · decide

/-- C5 amended: with no matching registered resource, `setFont` leaves the
page's font binding at its previous value, and it avoids failing exactly
when some font was previously bound (re-emitting the previous font's
selection instruction); with no previously bound font `setFont` fails, and
`drawImage` with no matching image always fails (nil dereference). -/
theorem unresolved_resource_amended (d : PdfDocument) (pi : Nat)
    (name : ByteStr) (x y : Int) (hpi : pi < d.pages.length)
    (hfont : ∀ f ∈ d.fonts, f.name ≠ name)
    (himg : ∀ img ∈ d.images, img.name ≠ name) :
    ((d.pages.getD pi dfltPage).font = none → setFont d pi name = none)
    ∧ (∀ j, (d.pages.getD pi dfltPage).font = some j →
        ∃ d', setFont d pi name = some d'
          ∧ (d'.pages.getD pi dfltPage).font = some j)
    ∧ drawImage d pi name x y = none := by
  have hff := findFont_no_match d.fonts name (d.pages.getD pi dfltPage).font hfont
  refine ⟨?_, ?_, ?_⟩
  · intro hnone
    simp only [setFont]
    rw [if_pos hpi, hff, hnone]
  · intro j hj
    simp only [setFont]
    rw [if_pos hpi, hff, hj]
    refine ⟨_, rfl, ?_⟩
    rw [getD_set_self _ _ _ _ hpi]
  · simp only [drawImage]
    rw [if_pos hpi, findImage_no_match d.images name himg]

/-- The document obtained by registering two fonts that share the symbolic
name `F1`: first Courier (code 1), then Helvetica (code 5). -/
def docTwoFonts : PdfDocument :=
  (runOps NewPdfDocument
    [Op.addFont (asciiStr ("F1")) 1, Op.addFont (asciiStr ("F1")) 5]).getD
    NewPdfDocument

/-- C5 witness: instantiating the amended statement on a concrete document
with two fonts, a page with no bound font, and an unmatched name. -/
theorem unresolved_resource_amended_witness :
    setFont docTwoFonts 0 (asciiStr ("F9")) = none
    ∧ drawImage docTwoFonts 0 (asciiStr ("F9")) 1 2 = none := by
  have h := unresolved_resource_amended docTwoFonts 0 (asciiStr ("F9")) 1 2
    (by decide) (by decide) (by decide)
  exact ⟨h.1 (by decide), h.2.2⟩

/-- C6: when several registered fonts share a symbolic name, `setFont`
binds the page's current font to the last-registered match. -/
theorem setFont_last_match_wins (d : PdfDocument) (pi : Nat) (name : ByteStr)
    (l₁ l₂ : List FontSt) (f : FontSt)
    (hfonts : d.fonts = l₁ ++ f :: l₂) (hname : f.name = name)
    (hlast : ∀ g ∈ l₂, g.name ≠ name) (hpi : pi < d.pages.length) :
    ∃ d', setFont d pi name = some d'
      ∧ (d'.pages.getD pi dfltPage).font = some l₁.length
      ∧ d'.fonts.getD l₁.length dfltFont = f := by
  have hff : findFont d.fonts name (d.pages.getD pi dfltPage).font
      = some l₁.length := by
    rw [hfonts]
    exact findFont_last_match l₁ l₂ f name _ hname hlast
  simp only [setFont]
  rw [if_pos hpi, hff]
  refine ⟨_, rfl, ?_, ?_⟩
  · rw [getD_set_self _ _ _ _ hpi]
  · show d.fonts.getD l₁.length dfltFont = f
    rw [hfonts, List.getD_append_right _ _ _ _ (Nat.le_refl _), Nat.sub_self]
    rfl

/-- C6 witness: `newDocument`, `addFont("F1", Courier)`,
`addFont("F1", Helvetica)`, then `setFont("F1")` resolves to the Helvetica
font object. -/
theorem setFont_last_match_wins_witness :
    ∃ d', setFont docTwoFonts 0 (asciiStr ("F1")) = some d'
      ∧ (d'.pages.getD 0 dfltPage).font = some 1
      ∧ d'.fonts.getD 1 dfltFont
          = { id := 8, name := asciiStr ("F1"), baseFont := asciiStr ("Helvetica"),
              subtype := asciiStr ("Type1"),
              encoding := asciiStr ("WinAnsiEncoding") } := by
  have h := setFont_last_match_wins docTwoFonts 0 (asciiStr ("F1"))
    [{ id := 7, name := asciiStr ("F1"), baseFont := asciiStr ("Courier"),
       subtype := asciiStr ("Type1"), encoding := asciiStr ("WinAnsiEncoding") }]
    []
    { id := 8, name := asciiStr ("F1"), baseFont := asciiStr ("Helvetica"),
      subtype := asciiStr ("Type1"), encoding := asciiStr ("WinAnsiEncoding") }
    (by decide) (by decide) (by decide) (by decide)
  obtain ⟨d', h1, h2, h3⟩ := h
  exact ⟨d', h1, h2, h3⟩

/-- The page `addPage` makes current, with all its seeded fields. -/
theorem addPage_fresh_page (d : PdfDocument) :
    (addPage d).pages.getD (addPage d).currentPage dfltPage
      = { id := d.objects.length + 1, contentId := d.objects.length + 2,
          font := none, fontSize := 10, height := 842, width := 595,
          x := 72, y := 842 - 72 - 10, leftMargin := 72, rightMargin := 72,
          topMargin := 72, bottomMargin := 72, text := textPreamble,
          lines := [], graphics := graphicsPreamble } := by
  simp only [addPage]
  exact getD_append_self _ _ _

/-- A reachable document on whose single page one box was drawn. -/
def docOneBox : PdfDocument :=
  (runOps NewPdfDocument [Op.drawBox 0 1 2 3 4]).getD NewPdfDocument

/-- C10 counterexample: the rendered content stream places the lines
buffer before the graphics buffer, so the graphics seed `0.5 w\r\n` does
not precede every caller-appended instruction: after one
`drawBox(1, 2, 3, 4)` the appended `1 2 3 4 re` instruction ends at byte
59 of the stream, and the seed occurs nowhere in those first 59 bytes —
it renders only after them. -/
theorem page_preamble_counterexample :
    contentStream (docOneBox.pages.getD 0 dfltPage)
      = asciiStr ("BT\r\n") ++ textPreamble ++ asciiStr ("\r\nET\r\n")
        ++ asciiStr ("1 2 3 4 re\r\n") ++ asciiStr ("S\r\n") ++ graphicsPreamble
    ∧ ¬ graphicsPreamble
        <:+: (contentStream (docOneBox.pages.getD 0 dfltPage)).take 59 := by
  refine ⟨by decide, by decide⟩

/-- C10 amended: every page created by `addPage` (including the initial
page of `newDocument`) starts with its text buffer pre-seeded with the
fixed preamble `/F1 10 Tf\r\n1 0 0 1 72 -29 Tm\r\n10 TL\r\n` (selecting a
font named `F1` at size 10 whether or not one is registered) and its
graphics buffer pre-seeded with `0.5 w\r\n`; both seeds remain prefixes of
their buffers in every reachable state, so the text preamble precedes
every caller-appended text instruction in the rendered content stream
(immediately after `BT`) and the graphics seed precedes every
caller-appended graphics instruction — but the rendered stream orders the
lines buffer (drawBox/drawLine output) before the graphics buffer, so the
graphics seed renders after those instructions, not before them. -/
theorem page_preamble_seeded_amended (d : PdfDocument) (h : Reachable d) :
    (∀ p ∈ d.pages, textPreamble <+: p.text
      ∧ graphicsPreamble <+: p.graphics
      ∧ (asciiStr ("BT\r\n") ++ textPreamble) <+: contentStream p
      ∧ contentStream p
          = asciiStr ("BT\r\n") ++ p.text ++ asciiStr ("\r\nET\r\n") ++ p.lines
            ++ asciiStr ("S\r\n") ++ p.graphics)
    ∧ (∀ e : PdfDocument,
        ((addPage e).pages.getD (addPage e).currentPage dfltPage).text
            = textPreamble
        ∧ ((addPage e).pages.getD (addPage e).currentPage dfltPage).graphics
            = graphicsPreamble
        ∧ ((addPage e).pages.getD (addPage e).currentPage dfltPage).lines = [])
    ∧ textPreamble = asciiStr ("/F1 10 Tf\r\n1 0 0 1 72 -29 Tm\r\n10 TL\r\n")
    ∧ graphicsPreamble = asciiStr ("0.5 w\r\n") := by
  have hinv := reachable_inv d h
  refine ⟨?_, ?_, rfl, rfl⟩
  · intro p hp
    refine ⟨hinv.text_pre p hp, hinv.graphics_pre p hp, ?_, rfl⟩
    obtain ⟨s, hs⟩ := hinv.text_pre p hp
    rw [contentStream]
    have h1 : (asciiStr ("BT\r\n") ++ textPreamble)
        <+: asciiStr ("BT\r\n") ++ p.text :=
      ⟨s, by rw [List.append_assoc, hs]⟩
    exact (((h1.trans (List.prefix_append _ _)).trans
      (List.prefix_append _ _)).trans (List.prefix_append _ _)).trans
      (List.prefix_append _ _)
  · intro e
    rw [addPage_fresh_page]
    exact ⟨rfl, rfl, rfl⟩

/-- C10 witness: the amended statement instantiated at the initial page
of the fresh document. -/
theorem page_preamble_seeded_amended_witness :
    textPreamble <+: (NewPdfDocument.pages.getD 0 dfltPage).text
    ∧ graphicsPreamble <+: (NewPdfDocument.pages.getD 0 dfltPage).graphics := by
  have h := (page_preamble_seeded_amended NewPdfDocument ⟨[], rfl⟩).1
    (NewPdfDocument.pages.getD 0 dfltPage) (by decide)
  exact ⟨h.1, h.2.1⟩

/-- The dictionary lines of a serialized image before the `/Length` line. -/
def imageDictPrefix (img : ImageSt) : ByteStr :=
  natStr img.id ++ asciiStr (" 0 obj\r\n")
  ++ asciiStr ("<<\r\n")
  ++ asciiStr ("/Type /XObject\r\n")
  ++ asciiStr ("/Subtype /Image\r\n")
  ++ (asciiStr ("/Name /") ++ img.name ++ asciiStr ("\r\n"))
  ++ (asciiStr ("/Width ") ++ intStr img.width ++ asciiStr ("\r\n"))
  ++ (asciiStr ("/Height ") ++ intStr img.height ++ asciiStr ("\r\n"))
  ++ asciiStr ("/BitsPerComponent 8\r\n")
  ++ asciiStr ("/ColorSpace /DeviceRGB\r\n")
  ++ asciiStr ("/Filter [ /ASCII85Decode /FlateDecode ]\r\n")
  ++ asciiStr ("/Predictor 1\r\n")

/-- C9: for every image of a reachable document, the stored payload is the
base-85 encoding of the (externally compressed) input, and the serialized
image object declares `/Length` equal to exactly the payload's byte length,
with exactly that payload between `stream\r\n` and `endstream` (so the
declared length is the byte count of what sits between the markers, not of
any earlier pipeline stage). -/
theorem image_stream_length_exact (d : PdfDocument) (h : Reachable d)
    (i : Nat) (hi : i < d.images.length) :
    (∃ c, (d.images.getD i dfltImage).ascii85data = ascii85Encode c)
    ∧ imageBytes (d.images.getD i dfltImage)
      = imageDictPrefix (d.images.getD i dfltImage)
        ++ ((asciiStr ("/Length ")
            ++ natStr (d.images.getD i dfltImage).ascii85data.length
            ++ asciiStr ("\r\n"))
        ++ (asciiStr (">>\r\n")
        ++ (asciiStr ("stream\r\n")
        ++ ((d.images.getD i dfltImage).ascii85data
        ++ (asciiStr ("endstream\r\n") ++ asciiStr ("endobj\r\n")))))) := by
  have hinv := reachable_inv d h
  refine ⟨hinv.img_enc _ (getD_mem_of_lt _ _ _ hi), ?_⟩
  rw [imageBytes, imageDictPrefix]
  simp only [List.append_assoc]

/-- A reachable document carrying one image whose compressed input is the
5-byte stream `[1, 2, 3, 4, 5]` (decoded bounds 2x1). -/
def docOneImage : PdfDocument :=
  (runOps NewPdfDocument
    [Op.addImage (asciiStr ("gopher")) 2 1 ([1, 2, 3, 4, 5])]).getD
    NewPdfDocument

/-- C9 witness: on the concrete one-image document; the payload (7 bytes)
differs in length from the compressed input (5 bytes) and the raster
(6 bytes), separating the three candidate lengths. -/
theorem image_stream_length_exact_witness :
    ((∃ c, (docOneImage.images.getD 0 dfltImage).ascii85data = ascii85Encode c)
    ∧ imageBytes (docOneImage.images.getD 0 dfltImage)
      = imageDictPrefix (docOneImage.images.getD 0 dfltImage)
        ++ ((asciiStr ("/Length ")
            ++ natStr (docOneImage.images.getD 0 dfltImage).ascii85data.length
            ++ asciiStr ("\r\n"))
        ++ (asciiStr (">>\r\n")
        ++ (asciiStr ("stream\r\n")
        ++ ((docOneImage.images.getD 0 dfltImage).ascii85data
        ++ (asciiStr ("endstream\r\n") ++ asciiStr ("endobj\r\n")))))))
    ∧ (docOneImage.images.getD 0 dfltImage).ascii85data.length = 7 := by
  refine ⟨image_stream_length_exact docOneImage
    ⟨[Op.addImage (asciiStr ("gopher")) 2 1 ([1, 2, 3, 4, 5])], rfl⟩ 0 (by decide),
    by decide⟩

/-- The amended byte-level file structure, assembled from the
specification's template wording with the three code-forced changes:
the xref subsection header carries a trailing space (`0 <count+1> \r\n`),
stream payloads are followed immediately by `endstream` (no inserted
CRLF), and the trailer's closing `>>` carries a trailing space.  Offsets
are the partial sums of the body lengths counted from the fixed header. -/
def specLayout (d : PdfDocument) : ByteStr :=
  let bodies := d.objects.map (specBody d)
  let offs := offsetsFrom headerBytes.length bodies
  headerBytes
  ++ cat bodies
  ++ (asciiStr ("xref\r\n")
  ++ (asciiStr ("0 ") ++ natStr (d.objects.length + 1) ++ asciiStr (" \r\n"))
  ++ asciiStr ("0000000000 65535 f\r\n")
  ++ cat (offs.map (fun off => pad10 off ++ asciiStr (" 00000 n\r\n")))
  ++ asciiStr ("trailer\r\n")
  ++ asciiStr ("<<\r\n")
  ++ (asciiStr ("/Size ") ++ natStr d.objects.length ++ asciiStr ("\r\n"))
  ++ (asciiStr ("/Root ") ++ objectRef d.catalogId ++ asciiStr ("\r\n"))
  ++ asciiStr (">> \r\n")
  ++ asciiStr ("startxref\r\n")
  ++ (natStr (headerBytes.length + (cat bodies).length) ++ asciiStr ("\r\n"))
  ++ asciiStr ("%%EOF\r\n"))

/-- C2 amended: for every document state, the serialized output matches the
amended byte-level structure exactly — header line, binary marker, object
bodies in registration order each shaped
`<id> 0 obj\r\n<<...>>\r\n[stream\r\n<payload>endstream\r\n]endobj\r\n`,
then `xref\r\n0 <count+1> \r\n0000000000 65535 f\r\n`, one
`<10-digit offset> 00000 n\r\n` line per object, then
`trailer\r\n<<\r\n/Size <count>\r\n/Root <catalog-ref>\r\n>> \r\nstartxref\r\n<offset>\r\n%%EOF\r\n`,
with no extra bytes anywhere. -/
theorem serialize_structure_amended (d : PdfDocument) :
    Bytes d = specLayout d := by
  have hbody : d.objects.map (objBytes d) = d.objects.map (specBody d) :=
    List.map_eq_map_iff.mpr (fun t _ => objBytes_eq_specBody d t)
  have hlen : natStr (xrefOffsets d).length = natStr d.objects.length := by
    rw [xrefOffsets_length]
  have hoffs : xrefOffsets d
      = offsetsFrom headerBytes.length (d.objects.map (specBody d)) := by
    rw [xrefOffsets, writeObjs_snd, hbody]
  have hsx : natStr (startxrefVal d)
      = natStr (headerBytes.length
          + (cat (d.objects.map (specBody d))).length) := by
    rw [startxrefVal, writeObjs_fst, List.length_append, hbody]
  rw [Bytes_decomp, tailChunk, specLayout]
  rw [hlen, hoffs, hsx, hbody]

/-- Bool check that `p` is a leading block of `l`. -/
def startsWith : ByteStr → ByteStr → Bool
  | [], _ => true
  | _ :: _, [] => false
  | a :: p, b :: l => a == b && startsWith p l

/-- Bool scan for `pat` occurring as a contiguous block of `l`. -/
def containsSeq (pat : ByteStr) : ByteStr → Bool
  | [] => pat.isEmpty
  | b :: l => startsWith pat (b :: l) || containsSeq pat l

theorem startsWith_false (p : ByteStr) :
    ∀ l, startsWith p l = false → ¬ p <+: l := by
  induction p with
  | nil => intro l h; rw [startsWith] at h; cases h
  | cons a p ih =>
      intro l h hp
      cases l with
      | nil =>
          obtain ⟨t, ht⟩ := hp
          cases ht
      | cons b l =>
          rw [startsWith] at h
          obtain ⟨heq, hp'⟩ := List.cons_prefix_cons.mp hp
          subst heq
          simp only [beq_self_eq_true, Bool.true_and] at h
          exact ih l h hp'

theorem containsSeq_false (pat : ByteStr) (l : ByteStr) :
    containsSeq pat l = false → ¬ pat <:+: l := by
  induction l with
  | nil =>
      intro h hinf
      obtain ⟨s, t, hst⟩ := hinf
      obtain ⟨h1, -⟩ := List.append_eq_nil.mp hst
      obtain ⟨-, hpat⟩ := List.append_eq_nil.mp h1
      subst hpat
      rw [containsSeq] at h
      cases h
  | cons b l ih =>
      intro h hinf
      rw [containsSeq, Bool.or_eq_false_iff] at h
      rcases List.infix_cons_iff.mp hinf with hpre | hinf'
      · exact startsWith_false pat (b :: l) h.1 hpre
      · exact ih h.2 hinf'

set_option maxRecDepth 10000 in
/-- C2 counterexample: the claim's template, instantiated at the fresh
six-object document, mandates that the output contain the contiguous block
`xref\r\n0 7\r\n` (`xref`, then `0 <count+1>` followed directly by CRLF);
the code instead writes `0 7 \r\n` with a space before the CRLF, and the
mandated block occurs nowhere in the output. -/
theorem serialize_structure_counterexample :
    ¬ asciiStr ("xref\r\n0 7\r\n") <:+: Bytes NewPdfDocument :=
  containsSeq_false (asciiStr ("xref\r\n0 7\r\n")) (Bytes NewPdfDocument)
    (by decide)

/-- C8 witness: on a concretely constructed document. -/
theorem ids_dense_gapless_witness :
    (∀ k, k < NewPdfDocument.objects.length →
      objId NewPdfDocument (NewPdfDocument.objects.getD k ObjTag.catalog) = k + 1)
    ∧ (NewPdfDocument.objects.length = 0 ∨
        objId NewPdfDocument
          (NewPdfDocument.objects.getD (NewPdfDocument.objects.length - 1) ObjTag.catalog)
          = NewPdfDocument.objects.length) :=
  ids_dense_gapless NewPdfDocument ⟨[], rfl⟩

end Gopdf
